import Mathlib

/-!
Verification model of the dicedb spill module (`main.c`, the active copy of
the core).  The module captures keys on the pre-eviction edge of the host
server, frames them as `expiry_ms (8 bytes, host little-endian byte order)
‖ payload` and writes them to RocksDB; it rehydrates keys on the pre-miss
edge or via the explicit restore command, and sweeps expired entries.

The RocksDB collaborator is modelled as an association list from byte-string
keys to byte-string values with point get / put / delete and forward
iteration; machine `int64_t` values are modelled as `Int` with explicit
two's-complement encoding into bytes, and the `uint64_t` statistics counters
as `Nat` with explicit wrap-around at `2 ^ 64`.  The wall clock `time(NULL)
* 1000` is passed explicitly; functions that read the clock twice in the C
source take two clock arguments, in source order.
-/

set_option autoImplicit false

namespace Spill

/-- A byte string (RocksDB key, RocksDB value or DUMP payload); each
element is one byte. -/
abbrev Bytes := List Nat

/-- `2 ^ 64`, the modulus of the C `uint64_t` / `size_t` arithmetic. -/
def U64SIZE : Nat := 18446744073709551616

/-- `2 ^ 63`, the first value whose 64-bit pattern is negative as `int64_t`. -/
def I64HALF : Nat := 9223372036854775808

/-- Wrapping `uint64_t` addition (`__sync_fetch_and_add`). -/
def u64add (a b : Nat) : Nat := (a + b) % U64SIZE

/-- Wrapping `uint64_t` subtraction (`__sync_fetch_and_sub`). -/
def u64sub (a b : Nat) : Nat := (a + U64SIZE - b % U64SIZE) % U64SIZE

/-- The bit pattern of an `int64_t` read as an unsigned 64-bit number
(the `(size_t)` cast of the C source, and the value `memcpy` lays down). -/
def toUInt64Nat (i : Int) : Nat := (i % (18446744073709551616 : Int)).toNat

/-- Little-endian byte decomposition: `natToBytesLE k n` is the `k`
low-order bytes of `n`, least significant first (the layout `memcpy`
produces for an integer on the host). -/
def natToBytesLE : Nat → Nat → List Nat
  | 0, _ => []
  | k + 1, n => n % 256 :: natToBytesLE k (n / 256)

/-- Little-endian byte recomposition, inverse of `natToBytesLE`. -/
def bytesToNatLE : List Nat → Nat
  | [] => 0
  | b :: bs => b + 256 * bytesToNatLE bs

/-- The 8 bytes `memcpy(ptr, &expiry_time_ms, sizeof(int64_t))` writes:
the two's-complement little-endian image of the signed 64-bit value. -/
def encodeInt64 (i : Int) : Bytes := natToBytesLE 8 (toUInt64Nat i)

/-- The signed 64-bit value `memcpy(&expiry_time_ms, ptr, sizeof(int64_t))`
reads back from the first 8 bytes of a stored value. -/
def decodeInt64 (v : Bytes) : Int :=
  let n := bytesToNatLE (v.take 8)
  if n < I64HALF then (n : Int) else (n : Int) - (U64SIZE : Int)

/-- The RocksDB contents: an association list from keys to values, one
entry per key (RocksDB keys are unique). -/
abbrev Store := List (Bytes × Bytes)

/-- Point lookup, `rocksdb_get`: first entry with the given key. -/
def storeGet : Store → Bytes → Option Bytes
  | [], _ => none
  | kv :: rest, k => if kv.1 = k then some kv.2 else storeGet rest k

/-- Upsert, `rocksdb_put`: replace the entry if the key is present,
append it otherwise. -/
def storePut : Store → Bytes → Bytes → Store
  | [], k, v => [(k, v)]
  | kv :: rest, k, v => if kv.1 = k then (k, v) :: rest else kv :: storePut rest k v

/-- Point delete, `rocksdb_delete` (`DeleteKeyFromDB`): remove every entry
with the given key. -/
def storeDelete : Store → Bytes → Store
  | [], _ => []
  | kv :: rest, k => if kv.1 = k then storeDelete rest k else kv :: storeDelete rest k

/-- Number of entries stored under a given key. -/
def keyCount (s : Store) (k : Bytes) : Nat :=
  s.countP (fun kv => decide (kv.1 = k))

/-- The `SpillStats` counters of the module (all `uint64_t` except the
signed `last_cleanup_at`). -/
structure SpillStats where
  num_keys_stored : Nat
  total_keys_written : Nat
  total_keys_restored : Nat
  total_keys_cleaned : Nat
  last_num_keys_cleaned : Nat
  last_cleanup_at : Int
  total_bytes_written : Nat
  total_bytes_read : Nat
deriving Repr, DecidableEq

/-- The mutable module state the claims are about: the open RocksDB
contents plus the statistics counters. -/
structure SpillState where
  store : Store
  stats : SpillStats
deriving Repr, DecidableEq

/-- The arguments of the `ValkeyModule_Call(ctx, "RESTORE", "slsc", key,
ttl_ms, dump_data, "REPLACE")` call asking the host to materialize a key. -/
structure MaterializeCall where
  key : Bytes
  ttl_ms : Int
  dump : Bytes
deriving Repr, DecidableEq

/-- `RestoreKeyFromDB` of `main.c`, the restore algorithm shared by the
pre-miss callback and the explicit restore command.

Inputs beyond the module state and the key mirror the environment the C
function reads: `now1` is the first `time(NULL) * 1000` read (the expiry
check, line «Check if key has expired»), `now2` the second read (the TTL
computation); `getErr` is the error out-parameter of `rocksdb_get`
(`some msg` when the store reports an error, in which case the value
pointer is `NULL` and the function returns `-1`); `hostOk` tells whether
the host's `RESTORE` call reply is a non-error reply.  The store delete
of `DeleteKeyFromDB` is modelled as succeeding (its error is only logged
and ignored by the caller).

Returns the C result code (`0` success, `-1` error, `-2` not found,
`-3` expired), the new module state, and the materialize (`RESTORE`)
call issued to the host, if any. -/
def RestoreKeyFromDB (st : SpillState) (k : Bytes) (now1 now2 : Int)
    (getErr : Option String) (hostOk : Bool) :
    Int × SpillState × Option MaterializeCall :=
  match getErr with
  | some _ => (-1, st, none)
  | none =>
    match storeGet st.store k with
    | none => (-2, st, none)
    | some v =>
      if v.length < 8 then (-1, st, none)
      else
        let expiry_time_ms := decodeInt64 v
        if expiry_time_ms > 0 ∧ expiry_time_ms ≤ now1 then
          (-3, { st with store := storeDelete st.store k }, none)
        else
          let dump_data := v.drop 8
          let ttl_ms : Int :=
            if expiry_time_ms > 0 then
              let t := expiry_time_ms - now2
              if t < 0 then 1 else t
            else 0
          let call : MaterializeCall := ⟨k, ttl_ms, dump_data⟩
          if hostOk then
            (0,
             { store := storeDelete st.store k,
               stats := { st.stats with
                 total_keys_restored := u64add st.stats.total_keys_restored 1,
                 total_bytes_read := u64add st.stats.total_bytes_read v.length,
                 num_keys_stored := u64sub st.stats.num_keys_stored 1 } },
             some call)
          else
            (-1, st, some call)

/-- `PremissNotification` of `main.c` on a genuine `premiss` event with the
store open: it runs `RestoreKeyFromDB` and discards the result code. -/
def PremissNotification (st : SpillState) (k : Bytes) (now1 now2 : Int)
    (getErr : Option String) (hostOk : Bool) : SpillState × Option MaterializeCall :=
  let r := RestoreKeyFromDB st k now1 now2 getErr hostOk
  (r.2.1, r.2.2)

/-- The replies a command handler can produce. -/
inductive Reply where
  | ok : Reply
  | null : Reply
  | err : String → Reply
deriving Repr, DecidableEq

/-- The literal string of `ERR_CORRUPTED_DATA` in `main.c`. -/
def ERR_CORRUPTED_DATA : String := "ERR Corrupted data in RocksDB"

/-- The literal expired-key error string of `RestoreCommand`. -/
def ERR_KEY_EXPIRED : String := "ERR Key has expired"

/-- The literal invalid-key error string of `RestoreCommand`. -/
def ERR_INVALID_KEY : String := "ERR Invalid key data"

/-- `RestoreCommand` of `main.c` (the `spill.restore` command) with the
store open and exactly one key argument: reject an empty key, then map
the `RestoreKeyFromDB` result code onto the reply protocol. -/
def RestoreCommand (st : SpillState) (k : Bytes) (now1 now2 : Int)
    (getErr : Option String) (hostOk : Bool) :
    Reply × SpillState × Option MaterializeCall :=
  if k.length = 0 then (Reply.err ERR_INVALID_KEY, st, none)
  else
    let r := RestoreKeyFromDB st k now1 now2 getErr hostOk
    let rep :=
      if r.1 = 0 then Reply.ok
      else if r.1 = -2 then Reply.null
      else if r.1 = -3 then Reply.err ERR_KEY_EXPIRED
      else Reply.err ERR_CORRUPTED_DATA
    (rep, r.2.1, r.2.2)

/-- The absolute expiry timestamp `PreevictionKeyNotification` computes
from the `PTTL` reply: `now_ms + pttl` for a positive `pttl`, the `pttl`
sentinel (`-1` / `-2`) verbatim otherwise, and the initial `-1` when the
`PTTL` reply is not an integer. -/
def computeExpiry (ttlReply : Option Int) (now : Int) : Int :=
  match ttlReply with
  | some pttl => if pttl > 0 then now + pttl else pttl
  | none => -1

/-- `PreevictionKeyNotification` of `main.c` on a genuine `preeviction`
event with the store open, after a successful `DUMP` returning the bytes
`dump`: frame `expiry_time_ms ‖ dump`, probe the store for the key
(best-effort; `probeErr` is the error out-parameter of that
`rocksdb_get`), put the framed value (`putErr` is the error of
`rocksdb_put`), and update the counters on success.  `is_new_key`
requires both a `NULL` probe value and a `NULL` probe error. -/
def PreevictionKeyNotification (st : SpillState) (k : Bytes) (dump : Bytes)
    (ttlReply : Option Int) (now : Int)
    (probeErr : Option String) (putErr : Option String) : SpillState :=
  let expiry_time_ms := computeExpiry ttlReply now
  let combined_data := encodeInt64 expiry_time_ms ++ dump
  let total_len := 8 + dump.length
  let is_new_key := probeErr.isNone && (storeGet st.store k).isNone
  match putErr with
  | some _ => st
  | none =>
    { store := storePut st.store k combined_data,
      stats := { st.stats with
        total_keys_written := u64add st.stats.total_keys_written 1,
        total_bytes_written := u64add st.stats.total_bytes_written total_len,
        num_keys_stored :=
          if is_new_key then u64add st.stats.num_keys_stored 1
          else st.stats.num_keys_stored } }

/-- The per-entry predicate of the sweep loops (`CleanupCommand` and
`PerformCleanup`): the value carries a TTL header and `ttl_ms > 0 &&
ttl_ms < current_time_ms`. -/
def sweepEntryExpired (now : Int) (kv : Bytes × Bytes) : Bool :=
  decide (8 ≤ kv.2.length) && decide (decodeInt64 kv.2 > 0) &&
    decide (decodeInt64 kv.2 < now)

/-- The shared sweep iteration of `CleanupCommand` and `PerformCleanup`:
walk the store forward; delete each entry whose decoded header is a
positive expiry strictly before `now`, counting it and decrementing
`num_keys_stored`; keep every other entry.  Returns the remaining
entries, the `num_keys_cleaned` local counter and the final
`num_keys_stored`. -/
def sweepLoop (now : Int) : Store → Nat → Store × Nat × Nat
  | [], num => ([], 0, num)
  | kv :: rest, num =>
    if sweepEntryExpired now kv then
      let r := sweepLoop now rest (u64sub num 1)
      (r.1, r.2.1 + 1, r.2.2)
    else
      let r := sweepLoop now rest num
      (kv :: r.1, r.2.1, r.2.2)

/-- `CleanupCommand` of `main.c` (the `spill.cleanup` command) with the
store open and no iterator error: sweep, update the cleanup statistics,
and reply with the `num_keys_scanned` / `num_keys_cleaned` summary.
`now` is `time(NULL) * 1000` at the start of the sweep and `nowSec` the
`time(NULL)` read recorded in `last_cleanup_at`. -/
def CleanupCommand (st : SpillState) (now : Int) (nowSec : Int) :
    SpillState × Nat × Nat :=
  let r := sweepLoop now st.store st.stats.num_keys_stored
  let num_keys_scanned := st.store.length
  let num_keys_cleaned := r.2.1
  ({ store := r.1,
     stats := { st.stats with
       num_keys_stored := r.2.2,
       total_keys_cleaned := u64add st.stats.total_keys_cleaned num_keys_cleaned,
       last_num_keys_cleaned := num_keys_cleaned,
       last_cleanup_at := nowSec } },
   num_keys_scanned, num_keys_cleaned)

/-- `PerformCleanup` of `main.c`, the periodic sweeper body, with the
shutdown flag up and no iterator error: the same sweep and statistics
update as `CleanupCommand`, returning `num_keys_cleaned`. -/
def PerformCleanup (st : SpillState) (now : Int) (nowSec : Int) :
    SpillState × Nat :=
  let r := CleanupCommand st now nowSec
  (r.1, r.2.2)

/-- `CountActiveKeys` of `main.c`: the startup forward scan that seeds
`num_keys_stored`; an entry is counted when its value is at least 8
bytes long and its decoded header satisfies `ttl_ms <= 0 || ttl_ms >=
current_time_ms`. -/
def CountActiveKeys (now : Int) : Store → Nat
  | [] => 0
  | kv :: rest =>
    (if 8 ≤ kv.2.length ∧ (decodeInt64 kv.2 ≤ 0 ∨ now ≤ decodeInt64 kv.2) then 1
     else 0) + CountActiveKeys now rest

/-- Leading-whitespace skipping of C `atoll` / `atoi`. -/
def skipWs : List Char → List Char
  | c :: rest =>
    if c = ' ' ∨ c = '\t' ∨ c = '\n' ∨ c = '\x0b' ∨ c = '\x0c' ∨ c = '\r' then
      skipWs rest
    else c :: rest
  | [] => []

/-- Decimal digit accumulation of C `atoll` / `atoi`: consume digits from
the front, stop at the first non-digit. -/
def digitsVal : List Char → Nat → Nat
  | c :: rest, acc =>
    if c.isDigit then digitsVal rest (acc * 10 + (c.toNat - 48)) else acc
  | [], acc => acc

/-- C `atoll` (and `atoi`) on the in-range inputs the module receives:
skip whitespace, read an optional sign, accumulate decimal digits, stop at
the first non-digit (a non-numeric string parses as 0).  Out-of-range
inputs are undefined behavior in C and are not modelled. -/
def atoll (s : String) : Int :=
  match skipWs s.data with
  | '-' :: rest => -(digitsVal rest 0 : Int)
  | '+' :: rest => (digitsVal rest 0 : Int)
  | l => (digitsVal l 0 : Int)

/-- ASCII lower-casing of one character code, as `tolower` does for the
option keys. -/
def lowerCode (c : Char) : Nat :=
  if 65 ≤ c.toNat ∧ c.toNat ≤ 90 then c.toNat + 32 else c.toNat

/-- Case-insensitive key comparison, `strcasecmp(key, lit) == 0`. -/
def keyIs (key lit : String) : Bool :=
  key.data.map lowerCode = lit.data.map lowerCode

/-- The option key literals of `ParseModuleArgs`. -/
def optPath : String := "path"

/-- The dashed spelling of the memory-budget option key. -/
def optMaxMemDash : String := "max-memory"

/-- The underscored spelling of the memory-budget option key. -/
def optMaxMemUnder : String := "max_memory"

/-- The dashed spelling of the cleanup-interval option key. -/
def optCleanupDash : String := "cleanup-interval"

/-- The underscored spelling of the cleanup-interval option key. -/
def optCleanupUnder : String := "cleanup_interval"

/-- The configuration `ParseModuleArgs` fills in (`SpillConfig` of
`main.c`); `max_memory` is a `size_t` (unsigned 64-bit). -/
structure SpillConfig where
  path : Option String
  max_memory : Nat
  cleanup_interval : Int
deriving Repr, DecidableEq

/-- The static initializer of `config` in `main.c`: no path, 256 MiB
memory budget, 300-second cleanup interval. -/
def defaultConfig : SpillConfig :=
  { path := none, max_memory := 256 * 1024 * 1024, cleanup_interval := 300 }

/-- `MIN_MAX_MEMORY_MB * 1024 * 1024`, the 20 MiB floor. -/
def MIN_MAX_MEMORY_BYTES : Nat := 20 * 1024 * 1024

/-- The argument loop of `ParseModuleArgs`: walk the argument vector two
at a time (a trailing unpaired argument is ignored, `i + 1 >= argc`
breaks).  `path` is recorded; a `max-memory` value is parsed with `atoll`,
cast to `size_t` and rejected below 20 MiB; a `cleanup-interval` value is
parsed with `atoi` and rejected when negative; unknown keys are skipped.
`none` is the `VALKEYMODULE_ERR` fatal return. -/
def parseArgsLoop : List String → SpillConfig → Option SpillConfig
  | key :: value :: rest, c =>
    if keyIs key optPath then
      parseArgsLoop rest { c with path := some value }
    else if keyIs key optMaxMemDash || keyIs key optMaxMemUnder then
      let m := toUInt64Nat (atoll value)
      if m < MIN_MAX_MEMORY_BYTES then none
      else parseArgsLoop rest { c with max_memory := m }
    else if keyIs key optCleanupDash || keyIs key optCleanupUnder then
      let ci := atoll value
      if ci < 0 then none
      else parseArgsLoop rest { c with cleanup_interval := ci }
    else parseArgsLoop rest c
  | _, c => some c

/-- `ParseModuleArgs` of `main.c`, starting from the static defaults: run
the argument loop, then require `path` to have been supplied. -/
def ParseModuleArgs (argv : List String) : Option SpillConfig :=
  match parseArgsLoop argv defaultConfig with
  | none => none
  | some c => if c.path.isSome then some c else none

/-! ### Helper lemmas: the 8-byte header codec -/

theorem length_natToBytesLE (k n : Nat) : (natToBytesLE k n).length = k := by
  induction k generalizing n with
  | zero => rfl
  | succ k ih => simp [natToBytesLE, ih]

theorem bytesToNatLE_natToBytesLE (k n : Nat) :
    bytesToNatLE (natToBytesLE k n) = n % 256 ^ k := by
  induction k generalizing n with
  | zero => simp [natToBytesLE, bytesToNatLE, Nat.mod_one]
  | succ k ih =>
    rw [natToBytesLE, bytesToNatLE, ih, pow_succ, mul_comm (256 ^ k) 256,
      Nat.mod_mul]

theorem encodeInt64_length (i : Int) : (encodeInt64 i).length = 8 :=
  length_natToBytesLE 8 (toUInt64Nat i)

theorem toUInt64Nat_lt (i : Int) : toUInt64Nat i < U64SIZE := by
  have h : (0 : Int) ≤ i % (18446744073709551616 : Int) :=
    Int.emod_nonneg i (by norm_num)
  have h2 : i % (18446744073709551616 : Int) < 18446744073709551616 := by
    exact Int.emod_lt_of_pos i (by norm_num)
  unfold toUInt64Nat U64SIZE
  omega

theorem bytesToNatLE_encodeInt64 (i : Int) :
    bytesToNatLE (encodeInt64 i) = toUInt64Nat i := by
  have h := toUInt64Nat_lt i
  rw [encodeInt64, bytesToNatLE_natToBytesLE]
  have : (256 : Nat) ^ 8 = U64SIZE := by norm_num [U64SIZE]
  rw [this]
  exact Nat.mod_eq_of_lt h

theorem take_eight_encode_append (i : Int) (p : Bytes) :
    (encodeInt64 i ++ p).take 8 = encodeInt64 i := by
  have h := encodeInt64_length i
  calc (encodeInt64 i ++ p).take 8
      = (encodeInt64 i ++ p).take (encodeInt64 i).length := by rw [h]
    _ = encodeInt64 i := List.take_left _ _

theorem drop_eight_encode_append (i : Int) (p : Bytes) :
    (encodeInt64 i ++ p).drop 8 = p := by
  have h := encodeInt64_length i
  calc (encodeInt64 i ++ p).drop 8
      = (encodeInt64 i ++ p).drop (encodeInt64 i).length := by rw [h]
    _ = p := List.drop_left _ _

/-- The header codec round-trips every `int64_t` value: decoding the
first 8 bytes of `encodeInt64 i ++ p` recovers `i`. -/
theorem decodeInt64_encode_append (i : Int) (p : Bytes)
    (hlo : -(I64HALF : Int) ≤ i) (hhi : i < (I64HALF : Int)) :
    decodeInt64 (encodeInt64 i ++ p) = i := by
  rw [decodeInt64, take_eight_encode_append, bytesToNatLE_encodeInt64]
  have hmod : i % (18446744073709551616 : Int) =
      if 0 ≤ i then i else i + 18446744073709551616 := by
    have := hlo
    have := hhi
    unfold I64HALF at *
    split <;> omega
  unfold toUInt64Nat I64HALF U64SIZE at *
  rw [hmod]
  split
  case isTrue h0 =>
    rw [if_pos]
    · omega
    · omega
  case isFalse h0 =>
    rw [if_neg]
    · omega
    · omega

/-! ### Helper lemmas: the store model -/

theorem storeGet_put_self (s : Store) (k v : Bytes) :
    storeGet (storePut s k v) k = some v := by
  induction s with
  | nil => simp [storePut, storeGet]
  | cons kv rest ih =>
    by_cases h : kv.1 = k
    · simp [storePut, h, storeGet]
    · simp [storePut, h, storeGet, ih]

theorem storeGet_delete_self (s : Store) (k : Bytes) :
    storeGet (storeDelete s k) k = none := by
  induction s with
  | nil => rfl
  | cons kv rest ih =>
    by_cases h : kv.1 = k
    · simp [storeDelete, h, ih]
    · simp [storeDelete, h, storeGet, ih]

theorem keyCount_eq_zero_of_get_none (s : Store) (k : Bytes)
    (h : storeGet s k = none) : keyCount s k = 0 := by
  induction s with
  | nil => rfl
  | cons kv rest ih =>
    rw [storeGet] at h
    by_cases hk : kv.1 = k
    · simp [hk] at h
    · simp [hk] at h
      simp [keyCount, List.countP_cons, hk] at *
      exact ih h

theorem keyCount_put_of_get_none (s : Store) (k v : Bytes)
    (h : storeGet s k = none) : keyCount (storePut s k v) k = 1 := by
  induction s with
  | nil => simp [storePut, keyCount, List.countP_cons]
  | cons kv rest ih =>
    rw [storeGet] at h
    by_cases hk : kv.1 = k
    · simp [hk] at h
    · simp [hk] at h
      simp [storePut, hk, keyCount, List.countP_cons] at *
      exact ih h

theorem keyCount_put_of_get_some (s : Store) (k v w : Bytes)
    (h : storeGet s k = some w) : keyCount (storePut s k v) k = keyCount s k := by
  induction s with
  | nil => simp [storeGet] at h
  | cons kv rest ih =>
    rw [storeGet] at h
    by_cases hk : kv.1 = k
    · simp [storePut, hk, keyCount, List.countP_cons]
    · simp [hk] at h
      simp [storePut, hk, keyCount, List.countP_cons] at *
      exact ih h

/-! ### Concrete fixtures used by witnesses and counterexamples -/

/-- All-zero statistics, the `static SpillStats stats = {0}` initializer. -/
def zeroStats : SpillStats := ⟨0, 0, 0, 0, 0, 0, 0, 0⟩

/-- An empty module state. -/
def stEmpty : SpillState := ⟨[], zeroStats⟩

/-- Statistics with five keys counted as stored. -/
def statsFive : SpillStats := { zeroStats with num_keys_stored := 5 }

/-- The bytes of the key `gone`. -/
def keyGone : Bytes := [103, 111, 110, 101]

/-- A state holding one long-expired entry for `keyGone` (expiry 10 ms,
payload `x`) and `num_keys_stored = 5`. -/
def stGone : SpillState := ⟨[(keyGone, encodeInt64 10 ++ [120])], statsFive⟩

/-- The bytes of the key `foo`. -/
def keyFoo : Bytes := [102, 111, 111]

/-- A state holding one entry for `keyFoo` with absolute expiry 5000 ms
and payload `[1, 2, 3]`. -/
def stFoo : SpillState := ⟨[(keyFoo, encodeInt64 5000 ++ [1, 2, 3])], zeroStats⟩

/-- A one-entry store whose entry carries the `-1` no-expiry sentinel. -/
def storeNeg1 : Store := [([1], encodeInt64 (-1) ++ [7])]

/-- The module state around `storeNeg1`. -/
def stNeg1 : SpillState := ⟨storeNeg1, zeroStats⟩

/-- A sample store-level error message. -/
def storeErrMsg : String := "boom"

/-- A sample path argument value. -/
def pathValue : String := "/data/spill"

/-- The string `-1`, a negative option value. -/
def negOneStr : String := "-1"

/-! ### Claims -/

/-- C1: Round trip of the payload.  After the pre-eviction handler stores
the framed value `expiry_ms ‖ p` for key `k`, a pre-miss callback or
explicit restore command running before expiry (`hlive`) passes to the
host's `RESTORE` call exactly the bytes `p`: the stored value minus its
first 8 bytes, of length `|v| - 8`.  This holds for every payload,
including the empty payload and payloads containing NUL bytes.  The
hypotheses ask that the computed absolute expiry fit in an `int64_t` and
that the restore run before expiry. -/
theorem claim_C1_payload_roundtrip (st : SpillState) (k p : Bytes)
    (ttlReply : Option Int) (now0 now1 now2 : Int) (hostOk : Bool)
    (hk : k ≠ [])
    (hlo : -(I64HALF : Int) ≤ computeExpiry ttlReply now0)
    (hhi : computeExpiry ttlReply now0 < (I64HALF : Int))
    (hlive : ¬(computeExpiry ttlReply now0 > 0 ∧ computeExpiry ttlReply now0 ≤ now1)) :
    storeGet (PreevictionKeyNotification st k p ttlReply now0 none none).store k
      = some (encodeInt64 (computeExpiry ttlReply now0) ++ p) ∧
    (encodeInt64 (computeExpiry ttlReply now0) ++ p).length - 8 = p.length ∧
    (PremissNotification (PreevictionKeyNotification st k p ttlReply now0 none none)
        k now1 now2 none hostOk).2
      = some ⟨k,
          if computeExpiry ttlReply now0 > 0 then
            (if computeExpiry ttlReply now0 - now2 < 0 then 1
             else computeExpiry ttlReply now0 - now2)
          else 0, p⟩ ∧
    (RestoreCommand (PreevictionKeyNotification st k p ttlReply now0 none none)
        k now1 now2 none hostOk).2.2
      = some ⟨k,
          if computeExpiry ttlReply now0 > 0 then
            (if computeExpiry ttlReply now0 - now2 < 0 then 1
             else computeExpiry ttlReply now0 - now2)
          else 0, p⟩ := by
  set e := computeExpiry ttlReply now0 with he
  have hget : storeGet (PreevictionKeyNotification st k p ttlReply now0 none none).store k
      = some (encodeInt64 e ++ p) := by
    simp only [PreevictionKeyNotification]
    exact storeGet_put_self st.store k _
  have hlen : ¬ ((encodeInt64 e ++ p).length < 8) := by
    simp [List.length_append, encodeInt64_length]
  have hdec : decodeInt64 (encodeInt64 e ++ p) = e :=
    decodeInt64_encode_append e p hlo hhi
  have hdrop : (encodeInt64 e ++ p).drop 8 = p := drop_eight_encode_append e p
  have hklen : ¬ (k.length = 0) := by
    simpa [List.length_eq_zero] using hk
  refine ⟨hget, ?_, ?_, ?_⟩
  · simp [List.length_append, encodeInt64_length]
  · simp only [PremissNotification, RestoreKeyFromDB, hget, hlen, hdec, hdrop,
      if_false, hlive]
    cases hostOk <;> simp
  · simp only [RestoreCommand, RestoreKeyFromDB, hget, hlen, hdec, hdrop, hklen,
      if_false, hlive]
    cases hostOk <;> simp

/-- Witness for C1 at a concrete input: empty payload, no-expiry sentinel
`pttl = -1`. -/
theorem claim_C1_payload_roundtrip_witness :
    storeGet (PreevictionKeyNotification stEmpty [1] [] (some (-1)) 0 none none).store [1]
      = some (encodeInt64 (computeExpiry (some (-1)) 0) ++ []) ∧
    (encodeInt64 (computeExpiry (some (-1)) 0) ++ ([] : Bytes)).length - 8
      = ([] : Bytes).length ∧
    (PremissNotification (PreevictionKeyNotification stEmpty [1] [] (some (-1)) 0 none none)
        [1] 0 0 none true).2 = some ⟨[1], 0, []⟩ ∧
    (RestoreCommand (PreevictionKeyNotification stEmpty [1] [] (some (-1)) 0 none none)
        [1] 0 0 none true).2.2 = some ⟨[1], 0, []⟩ := by
  have h := claim_C1_payload_roundtrip stEmpty [1] [] (some (-1)) 0 0 0 true
    (by decide) (by decide) (by decide) (by decide)
  simpa using h

/-- C2: the claim says that on an expired entry both restore entry points
delete the entry AND decrement `num_keys_stored` by 1.  The code deletes
but does not decrement: evaluating the restore of the long-expired entry
of `stGone` (expiry 10 ms, read at 50000 ms, `num_keys_stored = 5`)
returns the expired code, removes the entry, makes the command reply the
key-expired error — and leaves `num_keys_stored` at 5, not 4.  The
decrement appears only on the successful-restore and sweep paths of
`main.c`. -/
theorem claim_C2_expired_no_decrement :
    (RestoreKeyFromDB stGone keyGone 50000 50000 none true).1 = -3 ∧
    storeGet ((RestoreKeyFromDB stGone keyGone 50000 50000 none true).2.1).store keyGone
      = none ∧
    ((RestoreKeyFromDB stGone keyGone 50000 50000 none true).2.1).stats.num_keys_stored
      = 5 ∧
    (RestoreCommand stGone keyGone 50000 50000 none true).1 = Reply.err ERR_KEY_EXPIRED ∧
    ((RestoreCommand stGone keyGone 50000 50000 none true).2.1).stats.num_keys_stored
      = 5 ∧
    stGone.stats.num_keys_stored = 5 ∧ (5 : Nat) ≠ 5 - 1 := by decide

/-- C3: the claim says the TTL passed to the host's materialize call
equals `max(1, expiry_ms - now_ms())` and is never 0.  The code computes
`ttl_ms = expiry_ms - now` from a second clock read and floors only the
strictly negative case (`if (ttl_ms < 0) ttl_ms = 1`), so when the clock
advances between the expiry check and the TTL computation and lands
exactly on the expiry (first read 4000 ms, second read 5000 ms, expiry
5000 ms), the entry passes the expiry check yet `RESTORE` is called with
TTL 0 — the reserved "no expiry" value — where `max(1, 5000 - 5000) = 1`.
This contradicts the code's own `Minimum 1ms TTL` comment. -/
theorem claim_C3_ttl_zero_on_race :
    (RestoreKeyFromDB stFoo keyFoo 4000 5000 none true).2.2
      = some ⟨keyFoo, 0, [1, 2, 3]⟩ ∧
    (RestoreKeyFromDB stFoo keyFoo 4000 5000 none true).1 = 0 ∧
    max 1 ((5000 : Int) - 5000) = 1 ∧ (0 : Int) ≠ 1 := by decide

/-- C4 counterexample: the claim says a store get error is answered with
the store's own error message and only an undersized value with the
corrupted-data error.  In the code `RestoreKeyFromDB` returns `-1` for a
store get error, an undersized value and a host materialization failure
alike, and `RestoreCommand` maps every `-1` to the corrupted-data error:
a get error `boom` is answered with `ERR Corrupted data in RocksDB`, not
with `boom`, and a host failure is answered the same way. -/
theorem claim_C4_counterexample :
    (RestoreCommand stGone keyGone 0 0 (some storeErrMsg) true).1
      = Reply.err ERR_CORRUPTED_DATA ∧
    Reply.err ERR_CORRUPTED_DATA ≠ Reply.err storeErrMsg ∧
    (RestoreCommand stFoo keyFoo 0 0 none false).1 = Reply.err ERR_CORRUPTED_DATA := by
  refine ⟨by decide, ?_, by decide⟩
  intro h
  have : ERR_CORRUPTED_DATA = storeErrMsg := Reply.err.inj h
  exact absurd this (by decide)

/-- C4 amended: the explicit restore command does not distinguish the
failure causes — a store get error, a stored value shorter than 8 bytes
and a host materialization failure are all mapped to result `-1` and all
answered with the same corrupted-data error; the store's and the host's
own error strings are not surfaced (only success, not-found and expired
get distinct replies). -/
theorem claim_C4_amended (st : SpillState) (k v : Bytes) (now1 now2 : Int)
    (msg : String) (hostOk : Bool) (hk : k ≠ []) :
    (RestoreCommand st k now1 now2 (some msg) hostOk).1 = Reply.err ERR_CORRUPTED_DATA ∧
    (storeGet st.store k = some v → v.length < 8 →
      (RestoreCommand st k now1 now2 none hostOk).1 = Reply.err ERR_CORRUPTED_DATA) ∧
    (storeGet st.store k = some v → ¬ v.length < 8 →
      ¬(decodeInt64 v > 0 ∧ decodeInt64 v ≤ now1) →
      (RestoreCommand st k now1 now2 none false).1 = Reply.err ERR_CORRUPTED_DATA) := by
  have hklen : ¬ (k.length = 0) := by
    simpa [List.length_eq_zero] using hk
  refine ⟨?_, ?_, ?_⟩
  · simp [RestoreCommand, RestoreKeyFromDB, hklen]
  · intro hv hlen
    simp [RestoreCommand, RestoreKeyFromDB, hklen, hv, hlen]
  · intro hv hlen hexp
    simp [RestoreCommand, RestoreKeyFromDB, hklen, hv, hlen, hexp]

/-- Witness for C4 amended at the concrete states `stGone` (get error) and
`stFoo` (host failure). -/
theorem claim_C4_amended_witness :
    (RestoreCommand stFoo keyFoo 0 0 (some storeErrMsg) true).1
      = Reply.err ERR_CORRUPTED_DATA ∧
    (RestoreCommand stFoo keyFoo 0 0 none false).1 = Reply.err ERR_CORRUPTED_DATA := by
  have h := claim_C4_amended stFoo keyFoo (encodeInt64 5000 ++ [1, 2, 3]) 0 0
    storeErrMsg true (by decide)
  exact ⟨h.1, h.2.2 (by decide) (by decide) (by decide)⟩

/-- Modelled from the claim's words for comparison with the source scan:
the number of entries whose decoded `expiry_ms` is exactly 0 or strictly
after `now_ms` (the claim excludes negative sentinels and expiry equal to
now). -/
def countActiveKeysClaim (now : Int) (s : Store) : Nat :=
  List.countP (fun kv => decide (decodeInt64 kv.2 = 0 ∨ now < decodeInt64 kv.2)) s

/-- C5 counterexample: on a store holding one entry with the `-1`
no-expiry sentinel, the startup scan of `main.c` counts 1 (its predicate
is `ttl_ms <= 0 || ttl_ms >= now`), while the claim's predicate
(`expiry_ms == 0` or `expiry_ms > now`) counts 0 — so negative sentinels
ARE counted, refuting the claim. -/
theorem claim_C5_counterexample :
    CountActiveKeys 1000 storeNeg1 = 1 ∧
    countActiveKeysClaim 1000 storeNeg1 = 0 ∧
    CountActiveKeys 1000 storeNeg1 ≠ countActiveKeysClaim 1000 storeNeg1 := by decide

/-- C5 amended: the startup scan seeds `num_keys_stored` with exactly the
number of entries whose value is at least 8 bytes long and whose decoded
`expiry_ms` satisfies `expiry_ms ≤ 0` (so the 0 no-expiry value and the
`-1` / `-2` sentinels all count) or `expiry_ms ≥ now_ms` (expiry equal to
now still counts); all other entries — positive expiry strictly before
now, or values shorter than 8 bytes — are not counted. -/
theorem claim_C5_amended (now : Int) (s : Store) :
    CountActiveKeys now s =
      (s.filter (fun kv =>
        decide (8 ≤ kv.2.length ∧
          (decodeInt64 kv.2 ≤ 0 ∨ now ≤ decodeInt64 kv.2)))).length := by
  induction s with
  | nil => rfl
  | cons kv rest ih =>
    by_cases h : 8 ≤ kv.2.length ∧ (decodeInt64 kv.2 ≤ 0 ∨ now ≤ decodeInt64 kv.2)
    · simp [CountActiveKeys, List.filter_cons, h, ih, Nat.add_comm]
    · simp [CountActiveKeys, List.filter_cons, h, ih]

/-- C6 counterexample: sweep soundness as claimed — every remaining entry
satisfies `expiry_ms == 0 ∨ expiry_ms ≥ now` — fails on a store holding
an entry with the `-1` no-expiry sentinel: the sweep keeps it (it only
deletes `ttl_ms > 0 && ttl_ms < now`), and `-1` is neither 0 nor `≥
1000`. -/
theorem claim_C6_counterexample :
    (sweepLoop 1000 storeNeg1 0).1 = storeNeg1 ∧
    ¬(∀ kv ∈ (sweepLoop 1000 storeNeg1 0).1,
        decodeInt64 kv.2 = 0 ∨ decodeInt64 kv.2 ≥ 1000) := by decide

/-- The underlying induction: every entry surviving a sweep pass with a
decodable header has a non-positive expiry or an expiry at or after the
sweep's clock read. -/
theorem sweepLoop_sound (now : Int) (s : Store) (num : Nat) (kv : Bytes × Bytes)
    (hmem : kv ∈ (sweepLoop now s num).1) (hlen : 8 ≤ kv.2.length) :
    decodeInt64 kv.2 ≤ 0 ∨ now ≤ decodeInt64 kv.2 := by
  induction s generalizing num with
  | nil => simp [sweepLoop] at hmem
  | cons hd rest ih =>
    by_cases h : sweepEntryExpired now hd
    · rw [sweepLoop, if_pos h] at hmem
      exact ih _ hmem
    · rw [sweepLoop, if_neg h] at hmem
      rcases List.mem_cons.mp hmem with heq | hmem2
      · subst heq
        simp only [sweepEntryExpired, Bool.and_eq_true, decide_eq_true_eq,
          not_and, Bool.not_eq_true] at h
        by_cases h1 : decodeInt64 kv.2 > 0
        · right
          by_contra h2
          simp only [not_le] at h2
          have := h
          simp [hlen, h1, h2] at this
        · left
          omega
      · exact ih _ hmem2

/-- C6 amended: after a sweep (on-demand `CleanupCommand` or a periodic
`PerformCleanup` pass), every remaining entry `e` whose value still has a
decodable 8-byte header satisfies `e.expiry_ms ≤ 0 ∨ e.expiry_ms ≥
now_ms` taken at the start of the sweep: non-positive expiries (0 and the
`-1` / `-2` sentinels) survive by design, and only positive expiries
strictly before the sweep clock are removed. -/
theorem claim_C6_amended (st : SpillState) (now nowSec : Int) (kv : Bytes × Bytes)
    (hmem : kv ∈ (CleanupCommand st now nowSec).1.store ∨
            kv ∈ (PerformCleanup st now nowSec).1.store)
    (hlen : 8 ≤ kv.2.length) :
    decodeInt64 kv.2 ≤ 0 ∨ now ≤ decodeInt64 kv.2 := by
  have hmem2 : kv ∈ (sweepLoop now st.store st.stats.num_keys_stored).1 := by
    rcases hmem with h | h
    · simpa [CleanupCommand] using h
    · simpa [PerformCleanup, CleanupCommand] using h
  exact sweepLoop_sound now st.store st.stats.num_keys_stored kv hmem2 hlen

/-- Witness for C6 amended: the sentinel entry surviving the sweep of
`stNeg1` indeed has a non-positive expiry. -/
theorem claim_C6_amended_witness :
    decodeInt64 (encodeInt64 (-1) ++ [7]) ≤ 0 ∨
      (1000 : Int) ≤ decodeInt64 (encodeInt64 (-1) ++ [7]) :=
  claim_C6_amended stNeg1 1000 0 ([1], encodeInt64 (-1) ++ [7])
    (Or.inl (by decide)) (by decide)

/-- C7: restore is atomic with respect to the store.  For an entry that
reaches the materialize step (present, well-formed, not expired): when
the host materialization fails, both entry points return the error code
and leave the whole state — the entry and the counters
`total_keys_restored`, `total_bytes_read`, `num_keys_stored` — exactly as
it was; and the entry is gone from the store only when the host confirmed
the materialization. -/
theorem claim_C7_restore_atomic (st : SpillState) (k v : Bytes) (now1 now2 : Int)
    (hv : storeGet st.store k = some v) (hlen : ¬ v.length < 8)
    (hexp : ¬(decodeInt64 v > 0 ∧ decodeInt64 v ≤ now1)) (hk : k ≠ []) :
    (RestoreKeyFromDB st k now1 now2 none false).1 = -1 ∧
    (RestoreKeyFromDB st k now1 now2 none false).2.1 = st ∧
    (PremissNotification st k now1 now2 none false).1 = st ∧
    (RestoreCommand st k now1 now2 none false).2.1 = st ∧
    (∀ hostOk : Bool,
      storeGet ((RestoreKeyFromDB st k now1 now2 none hostOk).2.1).store k = none →
      hostOk = true) := by
  have hklen : ¬ (k.length = 0) := by
    simpa [List.length_eq_zero] using hk
  refine ⟨?_, ?_, ?_, ?_, ?_⟩
  · simp [RestoreKeyFromDB, hv, hlen, hexp]
  · simp [RestoreKeyFromDB, hv, hlen, hexp]
  · simp [PremissNotification, RestoreKeyFromDB, hv, hlen, hexp]
  · simp [RestoreCommand, RestoreKeyFromDB, hklen, hv, hlen, hexp]
  · intro hostOk hgone
    cases hostOk with
    | true => rfl
    | false =>
      have h2 : (RestoreKeyFromDB st k now1 now2 none false).2.1 = st := by
        simp [RestoreKeyFromDB, hv, hlen, hexp]
      rw [h2, hv] at hgone
      exact absurd hgone (by simp)

/-- Witness for C7 at the concrete state `stFoo` with a failing host. -/
theorem claim_C7_restore_atomic_witness :
    (RestoreKeyFromDB stFoo keyFoo 4000 4000 none false).1 = -1 ∧
    (RestoreKeyFromDB stFoo keyFoo 4000 4000 none false).2.1 = stFoo ∧
    (PremissNotification stFoo keyFoo 4000 4000 none false).1 = stFoo ∧
    (RestoreCommand stFoo keyFoo 4000 4000 none false).2.1 = stFoo ∧
    (∀ hostOk : Bool,
      storeGet ((RestoreKeyFromDB stFoo keyFoo 4000 4000 none hostOk).2.1).store keyFoo
        = none → hostOk = true) :=
  claim_C7_restore_atomic stFoo keyFoo (encodeInt64 5000 ++ [1, 2, 3]) 4000 4000
    (by decide) (by decide) (by decide) (by decide)

/-- C8: idempotent overwrite.  First part: a pre-eviction capture of a key
already present in the store bumps `total_keys_written` by 1 and
`total_bytes_written` by `8 + |p|` but leaves `num_keys_stored` alone.
Second part: starting from a state without the key, two successive
captures leave exactly one entry for it whose payload is the last
captured payload, and `num_keys_stored` has risen by exactly 1. -/
theorem claim_C8_idempotent_overwrite (st : SpillState) (k p1 p2 : Bytes)
    (t1 t2 : Option Int) (n1 n2 : Int) :
    (∀ v0, storeGet st.store k = some v0 →
      (PreevictionKeyNotification st k p2 t2 n2 none none).stats.num_keys_stored
        = st.stats.num_keys_stored ∧
      (PreevictionKeyNotification st k p2 t2 n2 none none).stats.total_keys_written
        = u64add st.stats.total_keys_written 1 ∧
      (PreevictionKeyNotification st k p2 t2 n2 none none).stats.total_bytes_written
        = u64add st.stats.total_bytes_written (8 + p2.length)) ∧
    (storeGet st.store k = none →
      storeGet (PreevictionKeyNotification
          (PreevictionKeyNotification st k p1 t1 n1 none none) k p2 t2 n2 none none).store k
        = some (encodeInt64 (computeExpiry t2 n2) ++ p2) ∧
      (encodeInt64 (computeExpiry t2 n2) ++ p2).drop 8 = p2 ∧
      keyCount (PreevictionKeyNotification
          (PreevictionKeyNotification st k p1 t1 n1 none none) k p2 t2 n2 none none).store k
        = 1 ∧
      (PreevictionKeyNotification
          (PreevictionKeyNotification st k p1 t1 n1 none none) k p2 t2 n2 none none).stats.num_keys_stored
        = u64add st.stats.num_keys_stored 1 ∧
      (PreevictionKeyNotification
          (PreevictionKeyNotification st k p1 t1 n1 none none) k p2 t2 n2 none none).stats.total_keys_written
        = u64add (u64add st.stats.total_keys_written 1) 1) := by
  constructor
  · intro v0 hv0
    simp [PreevictionKeyNotification, hv0]
  · intro hnone
    refine ⟨?_, drop_eight_encode_append _ p2, ?_, ?_, ?_⟩
    · simp only [PreevictionKeyNotification]
      exact storeGet_put_self _ k _
    · simp only [PreevictionKeyNotification]
      rw [keyCount_put_of_get_some _ k _ _ (storeGet_put_self st.store k _)]
      exact keyCount_put_of_get_none st.store k _ hnone
    · simp [PreevictionKeyNotification, storeGet_put_self, hnone]
    · simp [PreevictionKeyNotification]

/-- Witness for C8 at the concrete empty state: two captures of key `[1]`
with payloads `[9]` then `[8, 8]`, no TTL. -/
theorem claim_C8_idempotent_overwrite_witness :
    storeGet (PreevictionKeyNotification
        (PreevictionKeyNotification stEmpty [1] [9] none 0 none none)
        [1] [8, 8] none 0 none none).store [1]
      = some (encodeInt64 (computeExpiry none 0) ++ [8, 8]) ∧
    (encodeInt64 (computeExpiry none 0) ++ [8, 8]).drop 8 = [8, 8] ∧
    keyCount (PreevictionKeyNotification
        (PreevictionKeyNotification stEmpty [1] [9] none 0 none none)
        [1] [8, 8] none 0 none none).store [1] = 1 ∧
    (PreevictionKeyNotification
        (PreevictionKeyNotification stEmpty [1] [9] none 0 none none)
        [1] [8, 8] none 0 none none).stats.num_keys_stored
      = u64add stEmpty.stats.num_keys_stored 1 ∧
    (PreevictionKeyNotification
        (PreevictionKeyNotification stEmpty [1] [9] none 0 none none)
        [1] [8, 8] none 0 none none).stats.total_keys_written
      = u64add (u64add stEmpty.stats.total_keys_written 1) 1 :=
  (claim_C8_idempotent_overwrite stEmpty [1] [9] [8, 8] none none 0 0).2 (by decide)

/-- C10: when the best-effort pre-write probe inside a pre-eviction
capture returns a store error, the put still proceeds and
`total_keys_written` is bumped, but `is_new_key` — which requires both a
null probe value and a null probe error — is false, so `num_keys_stored`
is not incremented, whatever the store held for the key (in particular
even when the key was absent). -/
theorem claim_C10_probe_error_not_new (st : SpillState) (k dump : Bytes)
    (ttlReply : Option Int) (now : Int) (msg : String) :
    (PreevictionKeyNotification st k dump ttlReply now (some msg) none).stats.num_keys_stored
      = st.stats.num_keys_stored ∧
    (PreevictionKeyNotification st k dump ttlReply now (some msg) none).stats.total_keys_written
      = u64add st.stats.total_keys_written 1 ∧
    storeGet (PreevictionKeyNotification st k dump ttlReply now (some msg) none).store k
      = some (encodeInt64 (computeExpiry ttlReply now) ++ dump) := by
  refine ⟨?_, ?_, ?_⟩
  · simp [PreevictionKeyNotification]
  · simp [PreevictionKeyNotification]
  · simp only [PreevictionKeyNotification]
    exact storeGet_put_self st.store k _

/-! ### Claim-side characterizations of the argument vector (for C9) -/

/-- Some scanned key/value pair is fatal: a memory-budget value whose
`size_t`-cast parse is below 20 MiB, or a negative cleanup interval. -/
def hasBadPair : List String → Bool
  | key :: value :: rest =>
    ((keyIs key optMaxMemDash || keyIs key optMaxMemUnder) &&
      decide (toUInt64Nat (atoll value) < MIN_MAX_MEMORY_BYTES)) ||
    ((keyIs key optCleanupDash || keyIs key optCleanupUnder) &&
      decide (atoll value < 0)) ||
    hasBadPair rest
  | _ => false

/-- Some scanned pair supplies `path`. -/
def hasPathPair : List String → Bool
  | key :: _ :: rest => keyIs key optPath || hasPathPair rest
  | _ => false

/-- Some scanned pair supplies the memory budget. -/
def hasMaxMemPair : List String → Bool
  | key :: _ :: rest =>
    keyIs key optMaxMemDash || keyIs key optMaxMemUnder || hasMaxMemPair rest
  | _ => false

/-- Some scanned pair supplies the cleanup interval. -/
def hasCleanupPair : List String → Bool
  | key :: _ :: rest =>
    keyIs key optCleanupDash || keyIs key optCleanupUnder || hasCleanupPair rest
  | _ => false

/-- A key cannot match two option literals whose case-folded spellings
differ. -/
theorem keyIs_excl (key a b : String)
    (hne : a.data.map lowerCode ≠ b.data.map lowerCode)
    (ha : keyIs key a = true) : keyIs key b = false := by
  simp only [keyIs, decide_eq_true_eq] at ha ⊢
  simp only [decide_eq_false_iff_not]
  intro hb
  exact hne (ha.symm.trans hb)

theorem parseArgsLoop_none_iff : ∀ (l : List String) (c : SpillConfig),
    parseArgsLoop l c = none ↔ hasBadPair l = true
  | [], _ => by simp [parseArgsLoop, hasBadPair]
  | [_], _ => by simp [parseArgsLoop, hasBadPair]
  | key :: value :: rest, c => by
    by_cases hp : keyIs key optPath = true
    · have h1 : keyIs key optMaxMemDash = false := keyIs_excl key optPath _ (by decide) hp
      have h2 : keyIs key optMaxMemUnder = false := keyIs_excl key optPath _ (by decide) hp
      have h3 : keyIs key optCleanupDash = false := keyIs_excl key optPath _ (by decide) hp
      have h4 : keyIs key optCleanupUnder = false := keyIs_excl key optPath _ (by decide) hp
      rw [parseArgsLoop, hasBadPair]
      simp [hp, h1, h2, h3, h4, parseArgsLoop_none_iff rest]
    · by_cases hm : (keyIs key optMaxMemDash || keyIs key optMaxMemUnder) = true
      · have h3 : keyIs key optCleanupDash = false := by
          rcases Bool.or_eq_true_iff.mp hm with h | h
          · exact keyIs_excl key optMaxMemDash _ (by decide) h
          · exact keyIs_excl key optMaxMemUnder _ (by decide) h
        have h4 : keyIs key optCleanupUnder = false := by
          rcases Bool.or_eq_true_iff.mp hm with h | h
          · exact keyIs_excl key optMaxMemDash _ (by decide) h
          · exact keyIs_excl key optMaxMemUnder _ (by decide) h
        by_cases hbad : toUInt64Nat (atoll value) < MIN_MAX_MEMORY_BYTES
        · rw [parseArgsLoop, hasBadPair]
          simp [hp, hm, h3, h4, hbad]
        · rw [parseArgsLoop, hasBadPair]
          simp [hp, hm, h3, h4, hbad, parseArgsLoop_none_iff rest]
      · by_cases hc : (keyIs key optCleanupDash || keyIs key optCleanupUnder) = true
        · by_cases hbad : atoll value < 0
          · rw [parseArgsLoop, hasBadPair]
            simp [hp, hm, hc, hbad]
          · rw [parseArgsLoop, hasBadPair]
            simp [hp, hm, hc, hbad, parseArgsLoop_none_iff rest]
        · rw [parseArgsLoop, hasBadPair]
          simp [hp, hm, hc, parseArgsLoop_none_iff rest]

theorem parseArgsLoop_path : ∀ (l : List String) (c c' : SpillConfig),
    parseArgsLoop l c = some c' →
    (c'.path.isSome = true ↔ (c.path.isSome = true ∨ hasPathPair l = true))
  | [], c, c' => by
    intro h
    have h2 : some c = some c' := h
    cases h2
    simp [hasPathPair]
  | [_], c, c' => by
    intro h
    have h2 : some c = some c' := h
    cases h2
    simp [hasPathPair]
  | key :: value :: rest, c, c' => by
    intro h
    by_cases hp : keyIs key optPath = true
    · rw [parseArgsLoop] at h
      simp only [hp, if_true] at h
      have h' := parseArgsLoop_path rest _ c' h
      simp only [hasPathPair, hp, Bool.true_or]
      simp only [Option.isSome_some] at h'
      simp [h']
    · simp only [Bool.not_eq_true] at hp
      by_cases hm : (keyIs key optMaxMemDash || keyIs key optMaxMemUnder) = true
      · rw [parseArgsLoop] at h
        by_cases hbad : toUInt64Nat (atoll value) < MIN_MAX_MEMORY_BYTES
        · simp [hp, hm, hbad] at h
        · simp only [hp, hm, hbad, if_true, if_false, Bool.false_eq_true] at h
          have h' := parseArgsLoop_path rest _ c' h
          simp only [hasPathPair, hp, Bool.false_or]
          exact h'
      · by_cases hc : (keyIs key optCleanupDash || keyIs key optCleanupUnder) = true
        · rw [parseArgsLoop] at h
          by_cases hbad : atoll value < 0
          · simp [hp, hm, hc, hbad] at h
          · simp only [hp, hm, hc, hbad, if_true, if_false, Bool.false_eq_true] at h
            have h' := parseArgsLoop_path rest _ c' h
            simp only [hasPathPair, hp, Bool.false_or]
            exact h'
        · rw [parseArgsLoop] at h
          simp only [hp, hm, hc, if_false, Bool.false_eq_true] at h
          have h' := parseArgsLoop_path rest _ c' h
          simp only [hasPathPair, hp, Bool.false_or]
          exact h'

theorem parseArgsLoop_maxmem : ∀ (l : List String) (c c' : SpillConfig),
    parseArgsLoop l c = some c' → hasMaxMemPair l = false →
    c'.max_memory = c.max_memory
  | [], c, c' => by
    intro h _
    have h2 : some c = some c' := h
    cases h2
    rfl
  | [_], c, c' => by
    intro h _
    have h2 : some c = some c' := h
    cases h2
    rfl
  | key :: value :: rest, c, c' => by
    intro h hmm
    rw [hasMaxMemPair] at hmm
    obtain ⟨hm12, hmr⟩ := Bool.or_eq_false_iff.mp hmm
    obtain ⟨hm1, hm2⟩ := Bool.or_eq_false_iff.mp hm12
    rw [parseArgsLoop] at h
    by_cases hp : keyIs key optPath = true
    · simp only [hp, if_true] at h
      have h' := parseArgsLoop_maxmem rest _ c' h hmr
      simpa using h'
    · simp only [Bool.not_eq_true] at hp
      simp only [hp, hm1, hm2, Bool.or_self, if_false, Bool.false_eq_true] at h
      by_cases hc : (keyIs key optCleanupDash || keyIs key optCleanupUnder) = true
      · by_cases hbad : atoll value < 0
        · simp [hc, hbad] at h
        · simp only [hc, hbad, if_true, if_false] at h
          have h' := parseArgsLoop_maxmem rest _ c' h hmr
          simpa using h'
      · simp only [hc, if_false, Bool.false_eq_true] at h
        exact parseArgsLoop_maxmem rest _ c' h hmr

theorem parseArgsLoop_cleanup : ∀ (l : List String) (c c' : SpillConfig),
    parseArgsLoop l c = some c' → hasCleanupPair l = false →
    c'.cleanup_interval = c.cleanup_interval
  | [], c, c' => by
    intro h _
    have h2 : some c = some c' := h
    cases h2
    rfl
  | [_], c, c' => by
    intro h _
    have h2 : some c = some c' := h
    cases h2
    rfl
  | key :: value :: rest, c, c' => by
    intro h hcc
    rw [hasCleanupPair] at hcc
    obtain ⟨hc12, hcr⟩ := Bool.or_eq_false_iff.mp hcc
    obtain ⟨hc1, hc2⟩ := Bool.or_eq_false_iff.mp hc12
    rw [parseArgsLoop] at h
    by_cases hp : keyIs key optPath = true
    · simp only [hp, if_true] at h
      have h' := parseArgsLoop_cleanup rest _ c' h hcr
      simpa using h'
    · simp only [Bool.not_eq_true] at hp
      by_cases hm : (keyIs key optMaxMemDash || keyIs key optMaxMemUnder) = true
      · by_cases hbad : toUInt64Nat (atoll value) < MIN_MAX_MEMORY_BYTES
        · simp [hp, hm, hbad] at h
        · simp only [hp, hm, hbad, if_true, if_false, Bool.false_eq_true] at h
          have h' := parseArgsLoop_cleanup rest _ c' h hcr
          simpa using h'
      · simp only [hp, hm, hc1, hc2, Bool.or_self, if_false, Bool.false_eq_true] at h
        exact parseArgsLoop_cleanup rest _ c' h hcr

/-- C9 counterexample: the claim says parsing fails whenever a supplied
max-memory value parses below 20 MiB.  `atoll "-1" = -1 < 20 MiB`, but
the C source stores `(size_t)atoll(value)` and compares unsigned, so the
value wraps to `2^64 - 1`, passes the check, and parsing succeeds. -/
theorem claim_C9_counterexample :
    atoll negOneStr < (20971520 : Int) ∧
    ParseModuleArgs [ optPath, pathValue, optMaxMemDash, negOneStr ]
      = some { path := some pathValue, max_memory := 18446744073709551615,
               cleanup_interval := 300 } := by decide

/-- C9 amended: module-argument parsing fails exactly when no `path` pair
is supplied, or some `max-memory` pair's value — parsed by `atoll` and
cast to unsigned 64-bit `size_t`, so that negative values wrap around and
are accepted — is below 20 MiB, or some `cleanup-interval` pair's value
parses negative; otherwise parsing succeeds, keeping the defaults
`max_memory = 256 MiB` and `cleanup_interval = 300` when the respective
option is absent, and pairs with unknown keys are skipped without
effect. -/
theorem claim_C9_amended (argv : List String) :
    ((ParseModuleArgs argv = none) ↔
      (hasBadPair argv = true ∨ hasPathPair argv = false)) ∧
    (∀ c : SpillConfig, ParseModuleArgs argv = some c →
      (hasMaxMemPair argv = false → c.max_memory = 256 * 1024 * 1024) ∧
      (hasCleanupPair argv = false → c.cleanup_interval = 300)) ∧
    (∀ (key value : String) (rest : List String) (c₀ : SpillConfig),
      keyIs key optPath = false → keyIs key optMaxMemDash = false →
      keyIs key optMaxMemUnder = false → keyIs key optCleanupDash = false →
      keyIs key optCleanupUnder = false →
      parseArgsLoop (key :: value :: rest) c₀ = parseArgsLoop rest c₀) := by
  refine ⟨?_, ?_, ?_⟩
  · rw [ParseModuleArgs]
    cases hloop : parseArgsLoop argv defaultConfig with
    | none =>
      have hbad : hasBadPair argv = true := (parseArgsLoop_none_iff argv _).mp hloop
      simp [hbad]
    | some c =>
      have hbad : hasBadPair argv ≠ true := by
        intro hb
        rw [(parseArgsLoop_none_iff argv defaultConfig).mpr hb] at hloop
        cases hloop
      have hpath := parseArgsLoop_path argv defaultConfig c hloop
      simp only [defaultConfig, Option.isSome_none, Bool.false_eq_true, false_or] at hpath
      by_cases hps : c.path.isSome = true
      · simp [hps, hpath.mp hps, hbad]
      · have h2 : hasPathPair argv ≠ true := fun ht => hps (hpath.mpr ht)
        simp only [hps, Bool.false_eq_true, if_false]
        simp only [Bool.not_eq_true] at hps h2 hbad ⊢
        simp [h2, hbad]
  · intro c hc
    rw [ParseModuleArgs] at hc
    cases hloop : parseArgsLoop argv defaultConfig with
    | none => rw [hloop] at hc; cases hc
    | some c2 =>
      rw [hloop] at hc
      by_cases hps : c2.path.isSome = true
      · simp only [hps, if_true] at hc
        cases hc
        constructor
        · intro hmm
          have := parseArgsLoop_maxmem argv defaultConfig c hloop hmm
          simpa [defaultConfig] using this
        · intro hcc
          have := parseArgsLoop_cleanup argv defaultConfig c hloop hcc
          simpa [defaultConfig] using this
      · simp [hps] at hc
  · intro key value rest c₀ h1 h2 h3 h4 h5
    rw [parseArgsLoop]
    simp [h1, h2, h3, h4, h5]

/-- The configuration parsed from a lone `path` pair. -/
def pathOnlyConfig : SpillConfig :=
  { path := some pathValue, max_memory := 268435456, cleanup_interval := 300 }

/-- Witness for C9 amended: with only `path` supplied, parsing succeeds
and both defaults survive. -/
theorem claim_C9_amended_witness :
    pathOnlyConfig.max_memory = 256 * 1024 * 1024 ∧
    pathOnlyConfig.cleanup_interval = 300 := by
  have h := (claim_C9_amended [ optPath, pathValue ]).2.1 pathOnlyConfig (by decide)
  exact ⟨h.1 (by decide), h.2 (by decide)⟩

end Spill
